import Mathlib

/-!
Verification of `standardize_data.py`: a shallow embedding of the
spreadsheet-standardization utility and proofs about its behaviour.

The embedding models a pandas `DataFrame` as a list of column labels
together with a list of rows of cells.  A cell is either missing (`NaN`)
or a string payload; column labels are either bare integers (as produced
by `range(n)`) or strings.  Row indices in the model are the DataFrame
row indices used by the source (`df.iloc[i]`).
-/

namespace StandardizeData

/-- A spreadsheet cell as the program sees it: missing (NaN) or a string value. -/
inductive Cell where
  | nan : Cell
  | str : String → Cell
deriving DecidableEq, Repr

/-- A column label: a bare integer (as produced by `range(n)`) or a string. -/
inductive Label where
  | nat : Nat → Label
  | str : String → Label
deriving DecidableEq, Repr

/-- A DataFrame: column labels plus the rows of cells. -/
structure DataFrame where
  cols : List Label
  rows : List (List Cell)
deriving DecidableEq, Repr

/-- `len(df)` in the source: the number of rows. -/
def dfLen (df : DataFrame) : Nat := df.rows.length

/-- The rectangularity invariant of a real DataFrame: every row has one
cell per column label. -/
abbrev Rect (df : DataFrame) : Prop := ∀ r ∈ df.rows, r.length = df.cols.length

/-- `fillna('')` on one cell: NaN becomes the empty string, anything else kept. -/
def fillna (c : Cell) : String :=
  match c with
  | .nan => ""
  | .str s => s

/-- `list(df.iloc[9].fillna(''))`: row 9 of a sheet read as header labels
(source lines 78-79). -/
def rowHeaders (df : DataFrame) : List String :=
  (df.rows.getD 9 []).map fillna

/-- One insertion into a Python dict: a later insert for the same key
overwrites an earlier one. -/
def pyDictInsert (m : String → Option Nat) (k : String) (v : Nat) :
    String → Option Nat :=
  fun q => if q = k then some v else m q

/-- The dict comprehension of source line 81: pairs (label, index) are
inserted left to right, skipping falsy (empty-string) labels, and a later
duplicate label overwrites the index recorded for an earlier one.  The
resulting dict is modelled by its lookup function. -/
def headerToCol (headers : List String) : String → Option Nat :=
  headers.enum.foldl
    (fun m p => if p.2 ≠ "" then pyDictInsert m p.2 p.1 else m)
    (fun _ => none)

/-- The `new_col_indices` list of source lines 84-87: for each base header
label, the dict lookup result (None when the label is absent). -/
def newColIndices (base_df new_df : DataFrame) : List (Option Nat) :=
  (rowHeaders base_df).map (headerToCol (rowHeaders new_df))

/-- Overwriting every column labelled `l` with the scalar `c`, within one row. -/
def overwriteCol (cols : List Label) (l : Label) (c : Cell) (r : List Cell) :
    List Cell :=
  (r.zip cols).map (fun p => if p.2 = l then c else p.1)

/-- Pandas scalar column assignment `df[l] = c`: an existing column with
that label is overwritten, otherwise a new rightmost column is appended. -/
def setColScalar (df : DataFrame) (l : Label) (c : Cell) : DataFrame :=
  if l ∈ df.cols then
    { cols := df.cols, rows := df.rows.map (overwriteCol df.cols l c) }
  else
    { cols := df.cols ++ [l], rows := df.rows.map (fun r => r ++ [c]) }

/-- The padding loop of source lines 93-96: for each integer `i` from the
current width up to `num_cols`, assign the empty string to column label `i`. -/
def padMeta (meta : DataFrame) (num_cols : Nat) : DataFrame :=
  (List.range' meta.cols.length (num_cols - meta.cols.length)).foldl
    (fun m i => setColScalar m (Label.nat i) (Cell.str "")) meta

/-- Source lines 93-99: pad the metadata block with empty columns, or trim
extra columns with `iloc[:, :num_cols]`, so its width matches `num_cols`. -/
def adjustMeta (meta : DataFrame) (num_cols : Nat) : DataFrame :=
  if meta.cols.length < num_cols then padMeta meta num_cols
  else if num_cols < meta.cols.length then
    { cols := meta.cols.take num_cols, rows := meta.rows.map (List.take num_cols) }
  else meta

/-- The inner loop of source lines 110-116: build one standardized data row
from one target data row, copying the cell at the looked-up column index
when the index exists and is within the row, and emitting an empty string
otherwise. -/
def remapRow (col_indices : List (Option Nat)) (r : List Cell) : List Cell :=
  col_indices.map (fun oc =>
    match oc with
    | some j => if j < r.length then r.getD j (Cell.str "") else Cell.str ""
    | none => Cell.str "")

/-- The warning printed by the short-sheet guard (source line 75). -/
def notEnoughRowsWarning : String :=
  "WARNING: Not enough rows to standardize. Skipping sheet."

/-- `standardize_sheet` (source lines 65-124).  Returns the resulting
DataFrame together with the diagnostics printed.  Notes on the embedding:

* `standardized_headers` is built by appending every element of
  `base_headers` in order (lines 83-87), hence equals `rowHeaders base_df`.
* The final column labels are `range(num_cols)` (line 123); the
  intermediate relabellings of the metadata block and the concat pieces
  (lines 100, 103, 118) set those same labels and do not change any cell,
  so the relabelling is applied once to the assembled frame.
* The `if new_data:` split of lines 117-121 is the same row concatenation
  in both branches (an empty data block appends nothing). -/
def standardize_sheet (base_df new_df : DataFrame) : DataFrame × List String :=
  if dfLen base_df ≤ 9 ∨ dfLen new_df ≤ 9 then
    (new_df, [notEnoughRowsWarning])
  else
    let standardized_headers := rowHeaders base_df
    let num_cols := standardized_headers.length
    let meta_rows := adjustMeta { cols := new_df.cols, rows := new_df.rows.take 9 } num_cols
    let new_data := (new_df.rows.drop 10).map (remapRow (newColIndices base_df new_df))
    ({ cols := (List.range num_cols).map Label.nat
       rows := meta_rows.rows ++ [standardized_headers.map Cell.str] ++ new_data },
     [])

/-- The fixed report title passed to `set_column_headers` (source line 170). -/
def ispiriTitle : String :=
  "Information Security Performance Indicator Reporting (ISPIRI)"

/-- `set_column_headers` (source lines 126-140): first column label becomes
the title, every other label becomes the empty string; a zero-column frame
is returned unchanged; cell values are untouched. -/
def set_column_headers (df : DataFrame) (title : String) : DataFrame :=
  if df.cols.length = 0 then df
  else { cols := Label.str title :: List.replicate (df.cols.length - 1) (Label.str "")
         rows := df.rows }

/-- A workbook: sheet names (in order) mapped to sheets, as the dict
returned by `read_file`. -/
abbrev Workbook := List (String × DataFrame)

/-- Python dict lookup `wb[name]` (None models the raised KeyError). -/
def wbLookup (wb : Workbook) (name : String) : Option DataFrame :=
  (wb.find? (fun p => p.1 = name)).map Prod.snd

/-- The outcome of processing one file: either the workbook that reached
the write step, or the diagnostic printed by the catch-all handler. -/
inductive FileOutcome where
  | saved : Workbook → FileOutcome
  | error : String → FileOutcome
deriving DecidableEq, Repr

/-- Whether the outcome reached the write step. -/
def FileOutcome.isSaved : FileOutcome → Bool
  | .saved _ => true
  | .error _ => false

/-- The per-sheet loop of `standardize_data` (source lines 157-176):
iterate over the base workbook's sheet names in order; the reserved names
pass the target sheet through, other names are standardized; every sheet
then gets its column labels replaced by `set_column_headers`.  A missing
target sheet raises a KeyError which escapes the whole loop, so the error
aborts the remaining sheets. -/
def processSheets (new_sheets : Workbook) : Workbook → Except String Workbook
  | [] => .ok []
  | (sheet_name, base_sheet) :: rest =>
    match wbLookup new_sheets sheet_name with
    | none => .error ("KeyError: " ++ sheet_name)
    | some new_sheet =>
      let sheet :=
        if sheet_name = "Doc info" ∨ sheet_name = "Summary" then new_sheet
        else (standardize_sheet base_sheet new_sheet).1
      let sheet := set_column_headers sheet ispiriTitle
      match processSheets new_sheets rest with
      | .ok out => .ok ((sheet_name, sheet) :: out)
      | .error e => .error e

/-- `standardize_data` (source lines 142-198) after the two reads, with
I/O abstracted away: a KeyError from the sheet loop is caught by the
outer `except` and reported, so nothing is saved; otherwise the
standardized workbook reaches `save_file`. -/
def standardize_data_model (base_sheets new_sheets : Workbook) : FileOutcome :=
  match processSheets new_sheets base_sheets with
  | .ok out => .saved out
  | .error e => .error e

/-- `standardize_folder` (source lines 200-222): each discovered file is
processed with a per-file try/except, so files are handled independently
in order. -/
def standardize_folder_model (base_sheets : Workbook) :
    List Workbook → List FileOutcome
  | [] => []
  | f :: rest =>
    standardize_data_model base_sheets f :: standardize_folder_model base_sheets rest

/-- The index of the last occurrence of `h` among the (truthy) labels of a
list, counting from starting position `n`: the value a Python dict built by
left-to-right insertion reports for key `h`. -/
def lastIdxFrom (n : Nat) (h : String) : List String → Option Nat
  | [] => none
  | x :: xs =>
    match lastIdxFrom (n + 1) h xs with
    | some j => some j
    | none => if x = h ∧ h ≠ "" then some n else none

/-! ### Concrete example sheets and workbooks used to instantiate theorems -/

/-- A metadata filler cell. -/
def mCell : Cell := Cell.str "m"

/-- A base sheet with 10 rows whose header row 9 is Date, Name, Status
(the worked example of the specification). -/
def exBase : DataFrame :=
  { cols := [Label.str "b1", Label.str "b2", Label.str "b3"]
    rows := List.replicate 9 [mCell, mCell, mCell]
            ++ [[Cell.str "Date", Cell.str "Name", Cell.str "Status"]] }

/-- A target sheet with 11 rows, header row 9 Name, Date, and one data row
Alice, 2024-01-01. -/
def exNew : DataFrame :=
  { cols := [Label.str "t1", Label.str "t2"]
    rows := List.replicate 9 [mCell, mCell]
            ++ [[Cell.str "Name", Cell.str "Date"]]
            ++ [[Cell.str "Alice", Cell.str "2024-01-01"]] }

/-- A target sheet containing every base header label of `exBase`, with one
data row: used for the round-trip claim. -/
def exNewFull : DataFrame :=
  { cols := [Label.str "t1", Label.str "t2", Label.str "t3", Label.str "t4"]
    rows := List.replicate 9 [mCell, mCell, mCell, mCell]
            ++ [[Cell.str "Name", Cell.str "Date", Cell.str "Extra", Cell.str "Status"]]
            ++ [[Cell.str "Alice", Cell.str "D1", Cell.str "E1", Cell.str "S1"]] }

/-- A base sheet whose header row 9 is the single label A. -/
def dupBase : DataFrame :=
  { cols := [Label.str "b"]
    rows := List.replicate 9 [mCell] ++ [[Cell.str "A"]] }

/-- A target sheet whose header row 9 carries the label A at both columns,
with data row x, y. -/
def dupNew : DataFrame :=
  { cols := [Label.str "t1", Label.str "t2"]
    rows := List.replicate 9 [mCell, mCell]
            ++ [[Cell.str "A", Cell.str "A"]]
            ++ [[Cell.str "x", Cell.str "y"]] }

/-- A base sheet whose header row 9 has an empty label (a NaN cell) in
column 0 and the label B in column 1. -/
def emptyLabelBase : DataFrame :=
  { cols := [Label.str "b1", Label.str "b2"]
    rows := List.replicate 9 [mCell, mCell] ++ [[Cell.nan, Cell.str "B"]] }

/-- A target sheet whose own header row 9 also has an empty label in
column 0, with data beneath it. -/
def emptyLabelNew : DataFrame :=
  { cols := [Label.str "t1", Label.str "t2"]
    rows := List.replicate 9 [mCell, mCell]
            ++ [[Cell.str "", Cell.str "B"]]
            ++ [[Cell.str "hidden", Cell.str "v"]] }

/-- A one-row, one-column sheet (too short to standardize). -/
def tinyDF : DataFrame := { cols := [Label.str "a"], rows := [[Cell.str "x"]] }

/-- A zero-column sheet. -/
def emptyColsDF : DataFrame := { cols := [], rows := [] }

/-- A base workbook with two sheets S1 and S2. -/
def cexBaseWB : Workbook := [("S1", tinyDF), ("S2", tinyDF)]

/-- A target workbook lacking sheet S1 but carrying S2. -/
def cexNewWB : Workbook := [("S2", tinyDF)]

/-- A base workbook with the single sheet S1. -/
def okBaseWB : Workbook := [("S1", tinyDF)]

/-- A target workbook carrying the sheet S1. -/
def okNewWB : Workbook := [("S1", tinyDF)]

/-! ### The label-to-index map: the dict lookup returns the last truthy
occurrence of a label -/

theorem lastIdxFrom_none (h : String) :
    ∀ (hs : List String) (n : Nat), lastIdxFrom n h hs = none →
      ∀ k, k < hs.length → hs.getD k "" = h → h = "" := by
  intro hs
  induction hs with
  | nil => intro n hnone k hk; simp at hk
  | cons x xs ih =>
    intro n hnone k hk hget
    simp only [lastIdxFrom] at hnone
    cases hrec : lastIdxFrom (n + 1) h xs with
    | some j => rw [hrec] at hnone; simp at hnone
    | none =>
      rw [hrec] at hnone
      by_cases hcond : x = h ∧ h ≠ ""
      · rw [if_pos hcond] at hnone; simp at hnone
      · cases k with
        | zero =>
          rw [List.getD_cons_zero] at hget
          by_contra hne
          exact hcond ⟨hget, hne⟩
        | succ k =>
          rw [List.getD_cons_succ] at hget
          exact ih (n + 1) hrec k (by simpa using hk) hget

theorem lastIdxFrom_some (h : String) :
    ∀ (hs : List String) (n j : Nat), lastIdxFrom n h hs = some j →
      h ≠ "" ∧ n ≤ j ∧ j - n < hs.length ∧ hs.getD (j - n) "" = h ∧
      ∀ k, k < hs.length → hs.getD k "" = h → k ≤ j - n := by
  intro hs
  induction hs with
  | nil => intro n j hj; simp [lastIdxFrom] at hj
  | cons x xs ih =>
    intro n j hj
    simp only [lastIdxFrom] at hj
    cases hrec : lastIdxFrom (n + 1) h xs with
    | some j2 =>
      rw [hrec] at hj
      have hjj : j2 = j := by simpa using hj
      subst hjj
      obtain ⟨hne, hle, hlt, hget, hmax⟩ := ih (n + 1) j2 hrec
      have hsub : j2 - n = (j2 - (n + 1)) + 1 := by omega
      refine ⟨hne, by omega, by simp; omega, ?_, ?_⟩
      · rw [hsub, List.getD_cons_succ]; exact hget
      · intro k hk hgk
        cases k with
        | zero => omega
        | succ k =>
          rw [List.getD_cons_succ] at hgk
          have := hmax k (by simpa using hk) hgk
          omega
    | none =>
      rw [hrec] at hj
      by_cases hcond : x = h ∧ h ≠ ""
      · rw [if_pos hcond] at hj
        have hjn : n = j := by simpa using hj
        subst hjn
        refine ⟨hcond.2, Nat.le_refl n, by simp, ?_, ?_⟩
        · simpa [Nat.sub_self] using hcond.1
        · intro k hk hgk
          cases k with
          | zero => omega
          | succ k =>
            rw [List.getD_cons_succ] at hgk
            have := lastIdxFrom_none h xs (n + 1) hrec k (by simpa using hk) hgk
            exact absurd this hcond.2
      · rw [if_neg hcond] at hj
        simp at hj

theorem foldl_dict_eq (h : String) :
    ∀ (hs : List String) (n : Nat) (m : String → Option Nat),
      ((List.enumFrom n hs).foldl
        (fun m p => if p.2 ≠ "" then pyDictInsert m p.2 p.1 else m) m) h
      = match lastIdxFrom n h hs with
        | some j => some j
        | none => m h := by
  intro hs
  induction hs with
  | nil => intro n m; simp [lastIdxFrom]
  | cons x xs ih =>
    intro n m
    have hstep :
        (List.enumFrom n (x :: xs)).foldl
            (fun m p => if p.2 ≠ "" then pyDictInsert m p.2 p.1 else m) m
          = (List.enumFrom (n + 1) xs).foldl
              (fun m p => if p.2 ≠ "" then pyDictInsert m p.2 p.1 else m)
              (if x ≠ "" then pyDictInsert m x n else m) := rfl
    rw [hstep, ih]
    simp only [lastIdxFrom]
    cases hrec : lastIdxFrom (n + 1) h xs with
    | some j => rfl
    | none =>
      by_cases hcond : x = h ∧ h ≠ ""
      · rw [if_pos hcond]
        obtain ⟨hxh, hne⟩ := hcond
        subst hxh
        simp [pyDictInsert, hne]
      · rw [if_neg hcond]
        by_cases hx : x = ""
        · simp [hx]
        · have hhx : h ≠ x := by
            intro hhx
            exact hcond ⟨hhx.symm, by simpa [hhx] using hx⟩
          simp [pyDictInsert, hx, hhx]

theorem headerToCol_eq_lastIdx (headers : List String) (h : String) :
    headerToCol headers h = lastIdxFrom 0 h headers := by
  have henum : headers.enum = List.enumFrom 0 headers := rfl
  rw [headerToCol, henum, foldl_dict_eq]
  cases lastIdxFrom 0 h headers <;> rfl

/-- When the dict lookup succeeds, the returned index is the position of the
last occurrence of the label in the target header row, the label is
nonempty, and no later column carries it. -/
theorem headerToCol_some (headers : List String) (h : String) (j : Nat)
    (hj : headerToCol headers h = some j) :
    h ≠ "" ∧ j < headers.length ∧ headers.getD j "" = h ∧
      ∀ k, k < headers.length → headers.getD k "" = h → k ≤ j := by
  rw [headerToCol_eq_lastIdx] at hj
  obtain ⟨hne, _, hlt, hget, hmax⟩ := lastIdxFrom_some h headers 0 j hj
  rw [Nat.sub_zero] at hlt hget
  refine ⟨hne, hlt, hget, ?_⟩
  intro k hk hgk
  have := hmax k hk hgk
  omega

/-- When the dict lookup fails, every occurrence of the label in the target
header row would force the label to be empty: a nonempty label absent from
the map is absent from the headers. -/
theorem headerToCol_none (headers : List String) (h : String)
    (hn : headerToCol headers h = none) :
    ∀ k, k < headers.length → headers.getD k "" = h → h = "" := by
  rw [headerToCol_eq_lastIdx] at hn
  exact lastIdxFrom_none h headers 0 hn

/-- The empty label is never in the map. -/
theorem headerToCol_empty (headers : List String) :
    headerToCol headers "" = none := by
  cases hj : headerToCol headers "" with
  | none => rfl
  | some j =>
    obtain ⟨hne, _, _, _⟩ := headerToCol_some headers "" j hj
    exact absurd rfl hne

/-- A nonempty label occurring in the headers is in the map. -/
theorem headerToCol_isSome (headers : List String) (h : String)
    (hne : h ≠ "") (hmem : h ∈ headers) :
    ∃ j, headerToCol headers h = some j := by
  cases hj : headerToCol headers h with
  | some j => exact ⟨j, rfl⟩
  | none =>
    obtain ⟨k, hk, hget⟩ := List.getElem_of_mem hmem
    have : headers.getD k "" = h := by
      rw [List.getD_eq_getElem?_getD, List.getElem?_eq_getElem hk]
      simpa using hget
    exact absurd (headerToCol_none headers h hj k hk this) hne

/-! ### Structure of the standardized sheet -/

/-- Scalar column assignment never changes the number of rows. -/
theorem setColScalar_rows_length (df : DataFrame) (l : Label) (c : Cell) :
    (setColScalar df l c).rows.length = df.rows.length := by
  unfold setColScalar
  split <;> simp

/-- The padding loop never changes the number of rows. -/
theorem padLoop_rows_length (l : List Nat) :
    ∀ m : DataFrame,
      (l.foldl (fun m i => setColScalar m (Label.nat i) (Cell.str "")) m).rows.length
        = m.rows.length := by
  induction l with
  | nil => intro m; rfl
  | cons x xs ih =>
    intro m
    rw [List.foldl_cons, ih, setColScalar_rows_length]

/-- Width adjustment of the metadata block never changes the number of rows. -/
theorem adjustMeta_rows_length (meta : DataFrame) (n : Nat) :
    (adjustMeta meta n).rows.length = meta.rows.length := by
  unfold adjustMeta padMeta
  split
  · rw [padLoop_rows_length]
  · split <;> simp

/-- In the guarded branch, the standardized rows are the adjusted metadata
block, then the base header row, then the remapped data rows. -/
theorem standardize_sheet_rows (base_df new_df : DataFrame)
    (hb : 9 < dfLen base_df) (hn : 9 < dfLen new_df) :
    (standardize_sheet base_df new_df).1.rows
      = (adjustMeta { cols := new_df.cols, rows := new_df.rows.take 9 }
            (rowHeaders base_df).length).rows
        ++ [(rowHeaders base_df).map Cell.str]
        ++ (new_df.rows.drop 10).map (remapRow (newColIndices base_df new_df)) := by
  unfold standardize_sheet
  rw [if_neg (by omega)]

/-- The adjusted metadata block of the guarded branch has exactly 9 rows. -/
theorem adjustMeta_nine (new_df : DataFrame) (n : Nat) (hn : 9 < dfLen new_df) :
    (adjustMeta { cols := new_df.cols, rows := new_df.rows.take 9 } n).rows.length
      = 9 := by
  rw [adjustMeta_rows_length]
  simp only [List.length_take]
  unfold dfLen at hn
  omega

/-- Row 9 of the standardized sheet is the base header row, rendered as
string cells. -/
theorem standardize_sheet_header_row (base_df new_df : DataFrame)
    (hb : 9 < dfLen base_df) (hn : 9 < dfLen new_df) :
    (standardize_sheet base_df new_df).1.rows[9]?
      = some ((rowHeaders base_df).map Cell.str) := by
  rw [standardize_sheet_rows base_df new_df hb hn]
  have h9 := adjustMeta_nine new_df (rowHeaders base_df).length hn
  rw [List.append_assoc, List.getElem?_append_right (by omega), h9]
  have h0 : (9 : Nat) - 9 = 0 := rfl
  rw [h0, List.singleton_append, List.getElem?_cons_zero]

/-- Data row `10 + d` of the standardized sheet is the remap of data row
`10 + d` of the target sheet. -/
theorem standardize_sheet_data_row (base_df new_df : DataFrame)
    (hb : 9 < dfLen base_df) (hn : 9 < dfLen new_df) (d : Nat) :
    (standardize_sheet base_df new_df).1.rows[10 + d]?
      = (new_df.rows[10 + d]?).map (remapRow (newColIndices base_df new_df)) := by
  rw [standardize_sheet_rows base_df new_df hb hn]
  have h9 := adjustMeta_nine new_df (rowHeaders base_df).length hn
  rw [List.append_assoc, List.getElem?_append_right (by omega), h9]
  have h1 : 10 + d - 9 = 1 + d := by omega
  rw [h1, List.getElem?_append_right (by simp)]
  have h2 : 1 + d - [(rowHeaders base_df).map Cell.str].length = d := by
    simp
  rw [h2, List.getElem?_map, List.getElem?_drop]

/-- One cell of a remapped data row, through the index list of the sheet pair. -/
theorem remapRow_cell (base_df new_df : DataFrame) (r : List Cell) (i : Nat)
    (hi : i < (rowHeaders base_df).length) :
    (remapRow (newColIndices base_df new_df) r)[i]?
      = some (match headerToCol (rowHeaders new_df) ((rowHeaders base_df).getD i "") with
              | some j => if j < r.length then r.getD j (Cell.str "") else Cell.str ""
              | none => Cell.str "") := by
  unfold remapRow newColIndices
  rw [List.getElem?_map, List.getElem?_map]
  rw [List.getElem?_eq_getElem hi]
  rw [List.getD_eq_getElem?_getD, List.getElem?_eq_getElem hi]
  rfl

/-! ### The metadata block: padding and trimming -/

/-- The padding loop, run over fresh integer labels, appends one empty
column per step. -/
theorem padLoop_spec (k : Nat) :
    ∀ (a : Nat) (m : DataFrame),
      (∀ i, a ≤ i → i < a + k → Label.nat i ∉ m.cols) →
      ((List.range' a k).foldl
          (fun acc i => setColScalar acc (Label.nat i) (Cell.str "")) m)
        = { cols := m.cols ++ (List.range' a k).map Label.nat
            rows := m.rows.map (fun r => r ++ List.replicate k (Cell.str "")) } := by
  induction k with
  | zero =>
    intro a m hc
    simp
  | succ k ih =>
    intro a m hc
    have hmem : Label.nat a ∉ m.cols := hc a (Nat.le_refl a) (by omega)
    rw [List.range'_succ a k 1, List.foldl_cons]
    have hstep : setColScalar m (Label.nat a) (Cell.str "")
        = { cols := m.cols ++ [Label.nat a]
            rows := m.rows.map (fun r => r ++ [Cell.str ""]) } := by
      unfold setColScalar
      rw [if_neg hmem]
    rw [hstep, ih (a + 1) _ ?_]
    · simp only [DataFrame.mk.injEq]
      constructor
      · rw [List.append_assoc, List.map_cons, List.singleton_append]
      · rw [List.map_map]
        congr 1
        funext r
        simp only [Function.comp]
        rw [List.append_assoc, List.singleton_append, ← List.replicate_succ]
    · intro i hi1 hi2
      simp only [List.mem_append, List.mem_singleton]
      push_neg
      refine ⟨hc i (by omega) (by omega), ?_⟩
      intro heq
      cases heq
      omega

/-- One row of the width-adjusted metadata block: padded with empty string
cells, truncated, or unchanged, according to the original width. -/
theorem adjustMeta_row (new_df : DataFrame) (n i : Nat)
    (hc : ∀ j, j < n → Label.nat j ∉ new_df.cols) :
    (adjustMeta { cols := new_df.cols, rows := new_df.rows.take 9 } n).rows[i]?
      = ((new_df.rows.take 9)[i]?).map (fun r =>
          if new_df.cols.length < n then
            r ++ List.replicate (n - new_df.cols.length) (Cell.str "")
          else if n < new_df.cols.length then r.take n
          else r) := by
  unfold adjustMeta
  by_cases h1 : new_df.cols.length < n
  · rw [if_pos h1]
    unfold padMeta
    rw [padLoop_spec (n - new_df.cols.length) new_df.cols.length _ ?_]
    · simp only [List.getElem?_map, h1, if_pos]
    · intro j hj1 hj2
      exact hc j (by omega)
  · rw [if_neg h1]
    by_cases h2 : n < new_df.cols.length
    · rw [if_pos h2]
      simp only [List.getElem?_map, h1, h2, if_neg, if_pos, if_false]
    · rw [if_neg h2]
      simp only [h1, h2, if_false]
      cases (new_df.rows.take 9)[i]? <;> rfl

/-! ### The per-sheet orchestration loop -/

/-- When the sheet loop completes, the output carries exactly the base
workbook's sheet names, in the base workbook's order. -/
theorem processSheets_keys (new_sheets : Workbook) :
    ∀ (bs out : Workbook), processSheets new_sheets bs = Except.ok out →
      out.map Prod.fst = bs.map Prod.fst := by
  intro bs
  induction bs with
  | nil =>
    intro out h
    simp only [processSheets] at h
    cases h
    rfl
  | cons hd tl ih =>
    intro out h
    obtain ⟨n, b⟩ := hd
    simp only [processSheets] at h
    cases hw : wbLookup new_sheets n with
    | none => rw [hw] at h; cases h
    | some nd =>
      rw [hw] at h
      cases hp : processSheets new_sheets tl with
      | error e => rw [hp] at h; cases h
      | ok out2 =>
        rw [hp] at h
        cases h
        simp only [List.map_cons]
        rw [ih out2 hp]

/-- When some base sheet name is absent from the target workbook, the sheet
loop ends in an error. -/
theorem processSheets_missing (new_sheets : Workbook) :
    ∀ (bs : Workbook) (name : String), name ∈ bs.map Prod.fst →
      wbLookup new_sheets name = none →
      ∃ e, processSheets new_sheets bs = Except.error e := by
  intro bs
  induction bs with
  | nil => intro name hmem; simp at hmem
  | cons hd tl ih =>
    intro name hmem hlook
    obtain ⟨n, b⟩ := hd
    simp only [processSheets]
    cases hw : wbLookup new_sheets n with
    | none => exact ⟨"KeyError: " ++ n, rfl⟩
    | some nd =>
      have hne : n ≠ name := by
        intro heq
        rw [heq, hlook] at hw
        cases hw
      have hmem2 : name ∈ tl.map Prod.fst := by
        simp only [List.map_cons, List.mem_cons] at hmem
        rcases hmem with h | h
        · exact absurd h.symm hne
        · exact h
      obtain ⟨e, he⟩ := ih name hmem2 hlook
      rw [he]
      exact ⟨e, rfl⟩

/-- The per-row effect of the metadata width adjustment: pad with empty
string cells, truncate, or leave unchanged. -/
def metaAdjustRow (w n : Nat) (r : List Cell) : List Cell :=
  if w < n then r ++ List.replicate (n - w) (Cell.str "")
  else if n < w then r.take n
  else r

/-- `adjustMeta_row` restated through `metaAdjustRow`. -/
theorem adjustMeta_row_eq (new_df : DataFrame) (n i : Nat)
    (hc : ∀ j, j < n → Label.nat j ∉ new_df.cols) :
    (adjustMeta { cols := new_df.cols, rows := new_df.rows.take 9 } n).rows[i]?
      = ((new_df.rows.take 9)[i]?).map (metaAdjustRow new_df.cols.length n) := by
  rw [adjustMeta_row new_df n i hc]
  cases (new_df.rows.take 9)[i]? <;> rfl

/-! ### Claim theorems -/

/-- Claim C1: for every base sheet and target sheet each having at least 10
rows, the standardized sheet has a row at index 9 that is exactly the base
sheet's row-9 labels, NaN cells read as empty strings, in the same
left-to-right order and of the same length, regardless of the target's own
row-9 headers. -/
theorem C1_header_row (base_df new_df : DataFrame)
    (hb : 9 < dfLen base_df) (hn : 9 < dfLen new_df) :
    (standardize_sheet base_df new_df).1.rows[9]?
      = some ((base_df.rows.getD 9 []).map (fun c => Cell.str (fillna c))) := by
  rw [standardize_sheet_header_row base_df new_df hb hn]
  unfold rowHeaders
  rw [List.map_map]
  rfl

/-- Witness for C1: the hypotheses hold for the worked example and the
standardized row 9 is the base header row Date, Name, Status. -/
theorem C1_witness :
    9 < dfLen exBase ∧ 9 < dfLen exNew ∧
    (standardize_sheet exBase exNew).1.rows[9]?
      = some [Cell.str "Date", Cell.str "Name", Cell.str "Status"] := by
  refine ⟨by decide, by decide, ?_⟩
  rw [C1_header_row exBase exNew (by decide) (by decide)]
  decide

/-- Counterexample to claim C2 as stated: the target header row carries the
nonempty label A at columns 0 and 1; the first target column bearing A is
column 0, whose data cell is x, yet the standardized data row pulls y from
column 1 — the lookup resolves to the last matching target column, not the
first. -/
theorem C2_counterexample :
    rowHeaders dupNew = ["A", "A"]
    ∧ (dupNew.rows.getD 10 [])[0]? = some (Cell.str "x")
    ∧ ((standardize_sheet dupBase dupNew).1.rows.getD 10 [])[0]?
        = some (Cell.str "y")
    ∧ Cell.str "y" ≠ Cell.str "x" := by decide

/-- Claim C2 as amended: every lookup of a duplicated target label resolves
to the LAST target column bearing that label (the dict comprehension's
later insert overwrites the earlier), via the single label-to-index map
built once per sheet pair, so repeated base labels all pull from the same
target source column. -/
theorem C2_last_match (base_df new_df : DataFrame)
    (i j : Nat) (hi : i < (rowHeaders base_df).length)
    (hj : headerToCol (rowHeaders new_df) ((rowHeaders base_df).getD i "")
            = some j) :
    (newColIndices base_df new_df)[i]? = some (some j)
    ∧ j < (rowHeaders new_df).length
    ∧ (rowHeaders new_df).getD j "" = (rowHeaders base_df).getD i ""
    ∧ (∀ k, k < (rowHeaders new_df).length →
          (rowHeaders new_df).getD k "" = (rowHeaders base_df).getD i "" → k ≤ j)
    ∧ ∀ i2, i2 < (rowHeaders base_df).length →
        (rowHeaders base_df).getD i2 "" = (rowHeaders base_df).getD i "" →
        (newColIndices base_df new_df)[i2]? = some (some j) := by
  have hidx : ∀ i2, i2 < (rowHeaders base_df).length →
      (newColIndices base_df new_df)[i2]?
        = some (headerToCol (rowHeaders new_df) ((rowHeaders base_df).getD i2 "")) := by
    intro i2 hi2
    unfold newColIndices
    rw [List.getElem?_map, List.getElem?_eq_getElem hi2,
      List.getD_eq_getElem?_getD, List.getElem?_eq_getElem hi2]
    rfl
  obtain ⟨hne, hlt, hget, hmax⟩ := headerToCol_some _ _ j hj
  refine ⟨?_, hlt, hget, hmax, ?_⟩
  · rw [hidx i hi, hj]
  · intro i2 hi2 heq
    rw [hidx i2 hi2, heq, hj]

/-- Witness for the amended C2: on the duplicate-label pair, the label A is
looked up at index 1 (the last of the two target columns bearing it). -/
theorem C2_witness :
    headerToCol (rowHeaders dupNew) "A" = some 1
    ∧ (newColIndices dupBase dupNew)[0]? = some (some 1)
    ∧ (rowHeaders dupNew).getD 1 "" = "A" := by
  refine ⟨by decide, ?_, ?_⟩
  · exact (C2_last_match dupBase dupNew 0 1 (by decide) (by decide)).1
  · have h := (C2_last_match dupBase dupNew 0 1 (by decide) (by decide)).2.2.1
    rw [show (rowHeaders dupBase).getD 0 "" = "A" from by decide] at h
    exact h

/-- Claim C4: for sheets with at least 10 rows, a standardized position
whose base label is absent from the target's row-9 headers, or whose
matched target column index lies beyond the end of the given data row,
receives an empty string in that output data row. -/
theorem C4_missing_label (base_df new_df : DataFrame)
    (hb : 9 < dfLen base_df) (hn : 9 < dfLen new_df)
    (d i : Nat) (r : List Cell)
    (hr : new_df.rows[10 + d]? = some r)
    (hi : i < (rowHeaders base_df).length)
    (hcase : (rowHeaders base_df).getD i "" ∉ rowHeaders new_df
             ∨ ∃ j, headerToCol (rowHeaders new_df) ((rowHeaders base_df).getD i "")
                      = some j ∧ r.length ≤ j) :
    ((standardize_sheet base_df new_df).1.rows.getD (10 + d) [])[i]?
      = some (Cell.str "") := by
  have hrow := standardize_sheet_data_row base_df new_df hb hn d
  rw [hr] at hrow
  have hgetD : (standardize_sheet base_df new_df).1.rows.getD (10 + d) []
      = remapRow (newColIndices base_df new_df) r := by
    rw [List.getD_eq_getElem?_getD, hrow]
    rfl
  rw [hgetD, remapRow_cell base_df new_df r i hi]
  cases hlook : headerToCol (rowHeaders new_df) ((rowHeaders base_df).getD i "") with
  | none => rfl
  | some j =>
    show some (if j < r.length then r.getD j (Cell.str "") else Cell.str "")
      = some (Cell.str "")
    rcases hcase with habs | ⟨j2, hj2, hlen⟩
    · obtain ⟨hne, hjlt, hget, _⟩ := headerToCol_some _ _ j hlook
      have hmem : (rowHeaders new_df).getD j "" ∈ rowHeaders new_df := by
        rw [List.getD_eq_getElem?_getD, List.getElem?_eq_getElem hjlt]
        exact List.getElem_mem hjlt
      exact absurd (hget ▸ hmem) habs
    · rw [hlook] at hj2
      injection hj2 with hjj
      subst hjj
      rw [if_neg (Nat.not_lt.mpr hlen)]

/-- Witness for C4: the base label Status is absent from the target headers
Name, Date, and the standardized data row carries an empty string at its
position. -/
theorem C4_witness :
    "Status" ∉ rowHeaders exNew
    ∧ ((standardize_sheet exBase exNew).1.rows.getD 10 [])[2]?
        = some (Cell.str "") := by
  refine ⟨by decide, ?_⟩
  exact C4_missing_label exBase exNew (by decide) (by decide) 0 2
    [Cell.str "Alice", Cell.str "2024-01-01"] (by decide) (by decide)
    (Or.inl (by decide))

/-- Claim C6: when either sheet has 9 or fewer rows, `standardize_sheet`
performs no reconciliation: it returns the target sheet completely
unmodified together with the warning diagnostic. -/
theorem C6_short_sheet (base_df new_df : DataFrame)
    (h : dfLen base_df ≤ 9 ∨ dfLen new_df ≤ 9) :
    standardize_sheet base_df new_df = (new_df, [notEnoughRowsWarning]) := by
  unfold standardize_sheet
  rw [if_pos h]

/-- Witness for C6: a one-row base sheet triggers the guard and the target
comes back untouched, with the warning. -/
theorem C6_witness :
    dfLen tinyDF ≤ 9
    ∧ standardize_sheet tinyDF exNew = (exNew, [notEnoughRowsWarning]) :=
  ⟨by decide, C6_short_sheet tinyDF exNew (Or.inl (by decide))⟩

/-- Claim C8: `set_column_headers` returns a zero-column sheet unchanged;
otherwise it sets the label of column 0 to the title and every other label
to the empty string, leaving all cell values untouched; applying it twice
with the same title equals applying it once. -/
theorem C8_title_overwriter (df : DataFrame) (title : String) :
    (set_column_headers df title).rows = df.rows
    ∧ (df.cols.length = 0 → set_column_headers df title = df)
    ∧ (0 < df.cols.length →
        (set_column_headers df title).cols
          = Label.str title :: List.replicate (df.cols.length - 1) (Label.str ""))
    ∧ set_column_headers (set_column_headers df title) title
        = set_column_headers df title := by
  by_cases h : df.cols.length = 0
  · unfold set_column_headers
    simp [h]
  · have hfirst : set_column_headers df title
        = { cols := Label.str title :: List.replicate (df.cols.length - 1) (Label.str "")
            rows := df.rows } := by
      unfold set_column_headers
      rw [if_neg h]
    refine ⟨by rw [hfirst], fun h0 => absurd h0 h, fun _ => by rw [hfirst], ?_⟩
    rw [hfirst]
    unfold set_column_headers
    rw [if_neg (by simp)]
    simp

/-- Witness for C8: on a one-column sheet the label becomes the title and
the cells survive; a zero-column sheet is unchanged; re-running changes
nothing. -/
theorem C8_witness :
    (set_column_headers tinyDF "T").rows = tinyDF.rows
    ∧ set_column_headers emptyColsDF "T" = emptyColsDF
    ∧ (set_column_headers tinyDF "T").cols = [Label.str "T"]
    ∧ set_column_headers (set_column_headers tinyDF "T") "T"
        = set_column_headers tinyDF "T" := by
  refine ⟨(C8_title_overwriter tinyDF "T").1,
    (C8_title_overwriter emptyColsDF "T").2.1 (by decide), ?_,
    (C8_title_overwriter tinyDF "T").2.2.2⟩
  rw [(C8_title_overwriter tinyDF "T").2.2.1 (by decide)]
  decide

/-- Claim C9: a standardized position whose base row-9 label is the empty
string (including base NaN cells) carries the empty string in every output
data row, even when the target's own row-9 header has empty-labelled
columns with data beneath them, because empty labels are excluded from the
lookup map. -/
theorem C9_empty_base_label (base_df new_df : DataFrame)
    (hb : 9 < dfLen base_df) (hn : 9 < dfLen new_df)
    (d i : Nat) (hd : 10 + d < dfLen new_df)
    (hi : i < (rowHeaders base_df).length)
    (hempty : (rowHeaders base_df).getD i "" = "") :
    ((standardize_sheet base_df new_df).1.rows.getD (10 + d) [])[i]?
      = some (Cell.str "") := by
  obtain ⟨r, hr⟩ : ∃ r, new_df.rows[10 + d]? = some r :=
    ⟨_, List.getElem?_eq_getElem (show 10 + d < new_df.rows.length from hd)⟩
  have hrow := standardize_sheet_data_row base_df new_df hb hn d
  rw [hr] at hrow
  have hgetD : (standardize_sheet base_df new_df).1.rows.getD (10 + d) []
      = remapRow (newColIndices base_df new_df) r := by
    rw [List.getD_eq_getElem?_getD, hrow]
    rfl
  rw [hgetD, remapRow_cell base_df new_df r i hi, hempty, headerToCol_empty]

/-- Witness for C9: the base header has an empty (NaN) label at position 0,
the target also has an empty-labelled column 0 with the datum hidden under
it, and the standardized data row still carries an empty string there. -/
theorem C9_witness :
    (rowHeaders emptyLabelNew).getD 0 "" = ""
    ∧ (emptyLabelNew.rows.getD 10 [])[0]? = some (Cell.str "hidden")
    ∧ ((standardize_sheet emptyLabelBase emptyLabelNew).1.rows.getD 10 [])[0]?
        = some (Cell.str "") := by
  refine ⟨by decide, by decide, ?_⟩
  exact C9_empty_base_label emptyLabelBase emptyLabelNew (by decide) (by decide)
    0 0 (by decide) (by decide) (by decide)

/-- A successful positional lookup yields a member of the list. -/
theorem mem_of_getElem_some {α : Type} (l : List α) (i : Nat) (a : α)
    (h : l[i]? = some a) : a ∈ l := by
  have hi : i < l.length := by
    by_contra hge
    rw [List.getElem?_eq_none (by omega)] at h
    cases h
  rw [List.getElem?_eq_getElem hi] at h
  injection h with h2
  exact h2 ▸ List.getElem_mem hi

/-- Claim C5: when the target's row-9 headers cover every (nonempty) base
header label, each standardized data cell at a covered position equals the
target's input cell in the same row at the column matched to that
position's label — no data is lost for fully-covered schemas. -/
theorem C5_round_trip (base_df new_df : DataFrame)
    (hb : 9 < dfLen base_df) (hn : 9 < dfLen new_df)
    (hrect : Rect new_df)
    (hcov : ∀ h ∈ rowHeaders base_df, h ≠ "" → h ∈ rowHeaders new_df)
    (d i : Nat) (r : List Cell)
    (hr : new_df.rows[10 + d]? = some r)
    (hi : i < (rowHeaders base_df).length)
    (hne : (rowHeaders base_df).getD i "" ≠ "") :
    ∃ j, headerToCol (rowHeaders new_df) ((rowHeaders base_df).getD i "") = some j
      ∧ (rowHeaders new_df).getD j "" = (rowHeaders base_df).getD i ""
      ∧ ((standardize_sheet base_df new_df).1.rows.getD (10 + d) [])[i]? = r[j]? := by
  have hmemb : (rowHeaders base_df).getD i "" ∈ rowHeaders base_df := by
    rw [List.getD_eq_getElem?_getD, List.getElem?_eq_getElem hi]
    exact List.getElem_mem hi
  have hmemn : (rowHeaders base_df).getD i "" ∈ rowHeaders new_df :=
    hcov _ hmemb hne
  obtain ⟨j, hj⟩ := headerToCol_isSome _ _ hne hmemn
  obtain ⟨_, hjlt, hget, _⟩ := headerToCol_some _ _ j hj
  -- the target header row has one label per column, and the data row has
  -- one cell per column, so the looked-up index is within the data row
  have hhdr : (rowHeaders new_df).length = new_df.cols.length := by
    unfold rowHeaders
    rw [List.length_map]
    have h9 : new_df.rows.getD 9 [] ∈ new_df.rows := by
      rw [List.getD_eq_getElem?_getD,
        List.getElem?_eq_getElem (show 9 < new_df.rows.length from hn)]
      exact List.getElem_mem hn
    exact hrect _ h9
  have hrlen : r.length = new_df.cols.length :=
    hrect r (mem_of_getElem_some _ _ _ hr)
  have hjr : j < r.length := by omega
  have hrow := standardize_sheet_data_row base_df new_df hb hn d
  rw [hr] at hrow
  have hgetD : (standardize_sheet base_df new_df).1.rows.getD (10 + d) []
      = remapRow (newColIndices base_df new_df) r := by
    rw [List.getD_eq_getElem?_getD, hrow]
    rfl
  refine ⟨j, hj, hget, ?_⟩
  rw [hgetD, remapRow_cell base_df new_df r i hi, hj]
  show some (if j < r.length then r.getD j (Cell.str "") else Cell.str "") = r[j]?
  rw [if_pos hjr, List.getD_eq_getElem?_getD,
    List.getElem?_eq_getElem hjr]
  rfl

/-- Witness for C5: the fully-covering target carries Date data D1 in its
column 1, and the standardized data row carries D1 at the Date position 0. -/
theorem C5_witness :
    ((standardize_sheet exBase exNewFull).1.rows.getD 10 [])[0]?
      = some (Cell.str "D1") := by
  obtain ⟨j, hj, hlab, hcell⟩ := C5_round_trip exBase exNewFull (by decide) (by decide)
    (by decide) (by decide) 0 0
    [Cell.str "Alice", Cell.str "D1", Cell.str "E1", Cell.str "S1"]
    (by decide) (by decide) (by decide)
  have hj1 : j = 1 := by
    have h2 : some j = some 1 := by rw [← hj]; decide
    injection h2
  subst hj1
  rw [hcell]
  decide

/-- Claim C7: each metadata row 0 through 8 of the standardized sheet has
exactly as many columns as the base header row — extra target columns are
dropped, missing ones are filled with empty strings — and within the
surviving columns the metadata cells come unchanged from the target sheet.
The label hypothesis `hcl` excludes target column labels that collide with
the bare integers used by the padding loop (real sheets read from the
report template carry string labels). -/
theorem C7_metadata_rows (base_df new_df : DataFrame)
    (hb : 9 < dfLen base_df) (hn : 9 < dfLen new_df)
    (hrect : Rect new_df)
    (hcl : ∀ j, j < (rowHeaders base_df).length → Label.nat j ∉ new_df.cols)
    (i : Nat) (hi : i < 9) :
    ((standardize_sheet base_df new_df).1.rows.getD i []).length
        = (rowHeaders base_df).length
    ∧ ∀ j, j < (rowHeaders base_df).length →
        ((standardize_sheet base_df new_df).1.rows.getD i [])[j]?
          = some (if j < new_df.cols.length
                  then (new_df.rows.getD i []).getD j Cell.nan
                  else Cell.str "") := by
  obtain ⟨nrow, hnrow⟩ : ∃ v, new_df.rows[i]? = some v :=
    ⟨_, List.getElem?_eq_getElem (show i < new_df.rows.length by
      have := hn; unfold dfLen at this; omega)⟩
  have hnrowD : new_df.rows.getD i [] = nrow := by
    rw [List.getD_eq_getElem?_getD, hnrow]
    rfl
  have hlen : nrow.length = new_df.cols.length :=
    hrect nrow (mem_of_getElem_some _ _ _ hnrow)
  have htake : (new_df.rows.take 9)[i]? = some nrow := by
    rw [List.getElem?_take]
    simp [hi, hnrow]
  have hout : (standardize_sheet base_df new_df).1.rows[i]?
      = some (metaAdjustRow new_df.cols.length (rowHeaders base_df).length nrow) := by
    rw [standardize_sheet_rows base_df new_df hb hn, List.append_assoc,
      List.getElem?_append_left (by
        rw [adjustMeta_nine new_df _ hn]; omega),
      adjustMeta_row_eq new_df _ i hcl, htake]
    rfl
  have hgetD : (standardize_sheet base_df new_df).1.rows.getD i []
      = metaAdjustRow new_df.cols.length (rowHeaders base_df).length nrow := by
    rw [List.getD_eq_getElem?_getD, hout]
    rfl
  rw [hgetD, hnrowD]
  constructor
  · unfold metaAdjustRow
    by_cases h1 : new_df.cols.length < (rowHeaders base_df).length
    · rw [if_pos h1]
      rw [List.length_append, List.length_replicate]
      omega
    · by_cases h2 : (rowHeaders base_df).length < new_df.cols.length
      · rw [if_neg h1, if_pos h2, List.length_take]
        omega
      · rw [if_neg h1, if_neg h2]
        omega
  · intro j hj
    unfold metaAdjustRow
    by_cases h1 : new_df.cols.length < (rowHeaders base_df).length
    · rw [if_pos h1]
      by_cases hjw : j < new_df.cols.length
      · rw [if_pos hjw, List.getElem?_append_left (show j < nrow.length by omega),
          List.getD_eq_getElem?_getD,
          List.getElem?_eq_getElem (show j < nrow.length by omega)]
        rfl
      · rw [if_neg hjw,
          List.getElem?_append_right (show nrow.length ≤ j by omega)]
        simp [List.getElem?_replicate,
          show j - nrow.length < (rowHeaders base_df).length - new_df.cols.length
            from by omega]
    · by_cases h2 : (rowHeaders base_df).length < new_df.cols.length
      · rw [if_neg h1, if_pos h2, List.getElem?_take]
        rw [if_pos hj, if_pos (by omega), List.getD_eq_getElem?_getD,
          List.getElem?_eq_getElem (show j < nrow.length by omega)]
        rfl
      · rw [if_neg h1, if_neg h2, if_pos (by omega),
          List.getD_eq_getElem?_getD,
          List.getElem?_eq_getElem (show j < nrow.length by omega)]
        rfl

/-- Witness for C7: on the worked example the metadata row 0 is widened
from 2 to 3 columns, keeps its surviving cells, and pads with an empty
string. -/
theorem C7_witness :
    ((standardize_sheet exBase exNew).1.rows.getD 0 []).length
        = (rowHeaders exBase).length
    ∧ ((standardize_sheet exBase exNew).1.rows.getD 0 [])[2]? = some (Cell.str "")
    ∧ ((standardize_sheet exBase exNew).1.rows.getD 0 [])[0]? = some (Cell.str "m") := by
  have h := C7_metadata_rows exBase exNew (by decide) (by decide) (by decide)
    (by decide) 0 (by decide)
  refine ⟨h.1, ?_, ?_⟩
  · have h2 := h.2 2 (by decide)
    rw [h2]
    decide
  · have h0 := h.2 0 (by decide)
    rw [h0]
    decide

/-- Counterexample to claim C3 as stated: the base workbook has sheets S1
and S2, the target workbook lacks S1 but carries a processable S2; the
KeyError for S1 is caught only at file level, so the whole file errors and
S2 is never processed or written — the remaining sheets are NOT still
processed. -/
theorem C3_counterexample :
    "S2" ∈ cexBaseWB.map Prod.fst
    ∧ wbLookup cexNewWB "S2" = some tinyDF
    ∧ standardize_data_model cexBaseWB cexNewWB = FileOutcome.error "KeyError: S1"
    ∧ (standardize_data_model cexBaseWB cexNewWB).isSaved = false := by decide

/-- Claim C3 as amended: when the target workbook lacks a sheet bearing one
of the base workbook's sheet names, the whole file's processing aborts with
a diagnostic (nothing reaches the write step, the remaining sheets
included); the error is caught per file, so the other files of a batch are
still processed independently. -/
theorem C3_missing_sheet_aborts_file (base_sheets new_sheets : Workbook)
    (name : String)
    (h1 : name ∈ base_sheets.map Prod.fst)
    (h2 : wbLookup new_sheets name = none) (rest : List Workbook) :
    (standardize_data_model base_sheets new_sheets).isSaved = false
    ∧ standardize_folder_model base_sheets (new_sheets :: rest)
        = standardize_data_model base_sheets new_sheets
          :: standardize_folder_model base_sheets rest := by
  obtain ⟨e, he⟩ := processSheets_missing new_sheets base_sheets name h1 h2
  constructor
  · unfold standardize_data_model
    rw [he]
    rfl
  · rfl

/-- Witness for the amended C3: with S1 missing from the target workbook,
nothing is saved, and a batch starting with that file still processes the
remaining files. -/
theorem C3_witness :
    (standardize_data_model cexBaseWB cexNewWB).isSaved = false
    ∧ standardize_folder_model cexBaseWB [cexNewWB]
        = [standardize_data_model cexBaseWB cexNewWB] := by
  have h := C3_missing_sheet_aborts_file cexBaseWB cexNewWB "S1"
    (by decide) (by decide) []
  exact ⟨h.1, h.2⟩

/-- Claim C10: every run of `standardize_data` that reaches the write step
writes a workbook whose sheet names are exactly the base workbook's sheet
names, in the base workbook's order; names present only in the target are
dropped. -/
theorem C10_output_sheet_names (base_sheets new_sheets out : Workbook)
    (h : standardize_data_model base_sheets new_sheets = FileOutcome.saved out) :
    out.map Prod.fst = base_sheets.map Prod.fst
    ∧ ∀ nm, nm ∈ out.map Prod.fst → nm ∈ base_sheets.map Prod.fst := by
  have hok : processSheets new_sheets base_sheets = Except.ok out := by
    unfold standardize_data_model at h
    cases hp : processSheets new_sheets base_sheets with
    | ok o =>
      rw [hp] at h
      cases h
      rfl
    | error e => rw [hp] at h; cases h
  have hkeys := processSheets_keys new_sheets base_sheets out hok
  exact ⟨hkeys, fun nm hm => hkeys ▸ hm⟩

/-- Witness for C10: a one-sheet run reaches the write step and the saved
workbook carries exactly the base sheet name S1. -/
theorem C10_witness :
    standardize_data_model okBaseWB okNewWB
      = FileOutcome.saved [("S1", set_column_headers tinyDF ispiriTitle)]
    ∧ [("S1", set_column_headers tinyDF ispiriTitle)].map Prod.fst
        = okBaseWB.map Prod.fst := by
  have h0 : standardize_data_model okBaseWB okNewWB
      = FileOutcome.saved [("S1", set_column_headers tinyDF ispiriTitle)] := by decide
  exact ⟨h0, (C10_output_sheet_names okBaseWB okNewWB _ h0).1⟩

end StandardizeData
